import Mathlib

/-!
Shallow embedding of the payroll computation engine of `app.py`
(payroll-app repository) and proofs about it.

The engine turns raw shifts (clock-in/clock-out timestamps) plus employee
attributes and a public-holiday calendar into itemized pay records and
per-employee totals.  Timestamps are modelled as civil date-times over `ℕ`
(the proleptic Gregorian calendar, matching Python's `datetime`), money and
hours as `ℚ` (exact rational arithmetic in place of IEEE floats), and the
Python string operations used by the engine (`str.strip`, `str.lower`,
line splitting) as structurally recursive functions over `List Char`
restricted to their ASCII behaviour, which is the behaviour exercised by
the engine's inputs.
-/

namespace Payroll

/-! ### Python string primitives (ASCII fragment) -/

/-- Whitespace characters stripped by Python's `str.strip()` (ASCII fragment:
space, tab, newline, carriage return, vertical tab, form feed). -/
def isPyWhitespace (c : Char) : Bool :=
  c = ' ' || c = '\t' || c = '\n' || c = '\r' || c.toNat = 11 || c.toNat = 12

/-- Python `str.strip()`: drop leading and trailing whitespace. -/
def str_strip (s : String) : String :=
  ⟨((s.data.dropWhile isPyWhitespace).reverse.dropWhile isPyWhitespace).reverse⟩

/-- ASCII lowercasing of one character, as Python `str.lower()` does on
ASCII letters. -/
def lowerChar (c : Char) : Char :=
  if 65 ≤ c.toNat ∧ c.toNat ≤ 90 then Char.ofNat (c.toNat + 32) else c

/-- Python `str.lower()` (ASCII fragment). -/
def str_lower (s : String) : String :=
  ⟨s.data.map lowerChar⟩

/-- Split a character stream at newline characters, as iterating over a
Python text file yields its lines (the trailing newline is consumed by the
split; `str.strip()` would remove it anyway). -/
def splitNewlines : List Char → List (List Char)
  | [] => [[]]
  | c :: rest =>
    match splitNewlines rest with
    | [] => [[]]
    | l :: ls => if c = '\n' then [] :: l :: ls else (c :: l) :: ls

/-- Render one decimal digit. -/
def digitChar (d : ℕ) : Char := Char.ofNat (48 + d % 10)

/-- Zero-padded two-digit decimal rendering, as `strftime` `%m` / `%d`
produce for values below 100 (months and days always are). -/
def pad2 (n : ℕ) : String := ⟨[digitChar (n / 10), digitChar n]⟩

/-- Zero-padded four-digit decimal rendering, as `strftime` `%Y` produces
for the years representable by a pandas timestamp (1677–2262). -/
def pad4 (n : ℕ) : String :=
  ⟨[digitChar (n / 1000), digitChar (n / 100), digitChar (n / 10), digitChar n]⟩

/-! ### Civil dates and times (proleptic Gregorian, as Python `datetime`) -/

/-- A civil timestamp: the fields of a parsed `Clock In` / `Clock Out`
cell. -/
structure DateTime where
  year : ℕ
  month : ℕ
  day : ℕ
  hour : ℕ
  minute : ℕ
  second : ℕ
  deriving DecidableEq, Repr

/-- Gregorian leap-year rule, as `calendar.isleap`. -/
def isLeap (y : ℕ) : Bool := y % 4 = 0 && (y % 100 ≠ 0 || y % 400 = 0)

/-- Number of days in a month, as `calendar.monthrange(year, month)[1]`. -/
def daysInMonth (year month : ℕ) : ℕ :=
  if month = 2 then (if isLeap year then 29 else 28)
  else if month = 4 ∨ month = 6 ∨ month = 9 ∨ month = 11 then 30
  else 31

/-- Days in all years strictly before `y` in the proleptic Gregorian
calendar (year 1 is the first year, as in Python's `date.toordinal`). -/
def daysBeforeYear (y : ℕ) : ℕ :=
  365 * (y - 1) + (y - 1) / 4 - (y - 1) / 100 + (y - 1) / 400

/-- Days in the months of year `y` strictly before month `m`. -/
def daysBeforeMonth (y m : ℕ) : ℕ :=
  ((List.range (m - 1)).map (fun i => daysInMonth y (i + 1))).sum

/-- Python's `date.toordinal`: day number with `date(1,1,1).toordinal() = 1`. -/
def toOrdinal (y m d : ℕ) : ℕ := daysBeforeYear y + daysBeforeMonth y m + d

/-- Python's `date.weekday()`: Monday = 0 … Sunday = 6. -/
def weekday (y m d : ℕ) : ℕ := (toOrdinal y m d + 6) % 7

/-- Seconds since the (proleptic Gregorian) epoch; differences of these are
what `(clock_out - clock_in).total_seconds()` computes on naive pandas
timestamps. -/
def toSeconds (t : DateTime) : ℕ :=
  toOrdinal t.year t.month t.day * 86400 + t.hour * 3600 + t.minute * 60 + t.second

/-- Model of `date.strftime('%Y-%m-%d')`: zero-padded ISO rendering of the date
portion of a timestamp; the time-of-day fields are not consulted. -/
def fmtDate (t : DateTime) : String :=
  pad4 t.year ++ "-" ++ pad2 t.month ++ "-" ++ pad2 t.day

/-! ### Data model -/

/-- One employee record of `employees.csv`.  `otThreshold` is `none` when
the `OT Threshold` column is absent or unparsable (the code's
`try: float(...get("OT Threshold", 8)) except: 8.0` then falls back to 8).
`baseSalary` is only meaningful for full-time records, `hourlyRate` only
for part-time ones, mirroring the expected CSV columns. -/
structure Employee where
  name : String
  status : String
  baseSalary : ℚ
  hourlyRate : ℚ
  otThreshold : Option ℚ

/-- A spreadsheet cell value as it can appear in a timesheet row or in an
output row. -/
inductive Cell where
  | str (s : String)
  | rat (q : ℚ)
  | boolean (b : Bool)

/-- One raw timesheet row: its cells keyed by column name, together with
the outcome of `pd.to_datetime(row['Clock In'], format=...)` and
`pd.to_datetime(row['Clock Out'], format=...)` on its two timestamp cells
(`none` models the parse raising, i.e. an unparsable timestamp cell;
`pd.to_datetime` itself is an external library routine). -/
structure RawRow where
  cells : List (String × Cell)
  clockIn : Option DateTime
  clockOut : Option DateTime

/-- First cell of a row under a column name, with Python-dict lookup
semantics. -/
def lookupCell (cells : List (String × Cell)) (k : String) : Option Cell :=
  (cells.find? (fun p => p.1 == k)).map (fun p => p.2)

/-- Python dict assignment `cells[k] = v`: override in place if the key is
present, append otherwise (models `df_sheet['Name'] = sheet` cell-wise). -/
def dictSet (cells : List (String × Cell)) (k : String) (v : Cell) :
    List (String × Cell) :=
  if cells.any (fun p => p.1 == k) then
    cells.map (fun p => if p.1 == k then (k, v) else p)
  else
    cells ++ [(k, v)]

/-- One itemized pay record (the dict built at the end of the per-row loop
of `calculate_pay`): the eight derived fields, plus the full output row
`cells` including every pass-through cell of the source row. -/
structure ItemRecord where
  adjustedHours : ℚ
  hourlyRate : ℚ
  regularHours : ℚ
  overtimeHours : ℚ
  isHoliday : Bool
  regularPay : ℚ
  overtimePay : ℚ
  totalPay : ℚ
  cells : List (String × Cell)

/-- The eight derived column names that `calculate_pay` writes into each
output row (every other column passes through from the source row). -/
def derivedKeys : List String :=
  ["Adjusted Hours", "Hourly Rate", "Regular Hours", "Overtime Hours",
   "Is Public Holiday", "Regular Pay", "Overtime Pay", "Total Pay"]

/-- The totals row appended to an employee's sheet when it has at least one
itemized row. -/
structure TotalsRow where
  name : String
  regularPay : ℚ
  overtimePay : ℚ
  totalPay : ℚ

/-- Result of `calculate_pay` for one sheet: the itemized rows, and the
appended totals row (present exactly when the sheet had at least one
row). -/
structure CalcResult where
  items : List ItemRecord
  totals : Option TotalsRow

/-- The one kind of exception the engine itself raises: `pd.to_datetime`
failing on a timestamp cell inside the per-row loop. -/
inductive PayError where
  | malformedTimestamp
  deriving DecidableEq

/-- One worksheet of the uploaded workbook: its name (the batch label,
trusted to be an employee name) and its rows. -/
structure Sheet where
  label : String
  rows : List RawRow

/-! ### Helper functions of `app.py` -/

/-- Function `load_public_holidays` (app.py lines 24–28): keep each stripped
non-blank line of `public_holidays.txt` as a string; no parsing or
validation of any kind. -/
def load_public_holidays (content : String) : List String :=
  ((splitNewlines content.data).map (fun l => str_strip ⟨l⟩)).filter
    (fun s => s != "")

/-- Function `is_public_holiday` (app.py lines 46–47): string membership of the
zero-padded `%Y-%m-%d` rendering of the clock-in in the holiday list. -/
def is_public_holiday (date : DateTime) (holiday_list : List String) : Bool :=
  holiday_list.contains (fmtDate date)

/-- Python's built-in `round`: round half to even (banker's rounding) on
the exact rational value. -/
def pyRound (q : ℚ) : ℤ :=
  if q - ⌊q⌋ < 1/2 then ⌊q⌋
  else if (1:ℚ)/2 < q - ⌊q⌋ then ⌊q⌋ + 1
  else if ⌊q⌋ % 2 = 0 then ⌊q⌋ else ⌊q⌋ + 1

/-- Function `round_to_nearest_half` (app.py lines 49–51): `round(x * 2) / 2`. -/
def round_to_nearest_half (x : ℚ) : ℚ := (pyRound (x * 2) : ℚ) / 2

/-- Function `count_working_days` (app.py lines 53–60): the number of days of the
month that are not Tuesdays (`weekday() != 1`), ranging over the actual
month length `calendar.monthrange(year, month)[1]`. -/
def count_working_days (month year : ℕ) : ℕ :=
  ((List.range (daysInMonth year month)).filter
    (fun i => weekday year month (i + 1) ≠ 1)).length

/-! ### The per-shift computation (body of the loop in `calculate_pay`,
app.py lines 65–130) -/

/-- Raw worked hours: `(clock_out - clock_in).total_seconds() / 3600`
(app.py line 72).  Exact rational value; may be negative when clock-out
precedes clock-in, which the code does not reject. -/
def workedHoursRaw (clock_in clock_out : DateTime) : ℚ :=
  ((toSeconds clock_out : ℚ) - (toSeconds clock_in : ℚ)) / 3600

/-- The effective overtime threshold (app.py lines 83–86): the employee's
`OT Threshold` when present and parsable, else 8. -/
def otThresholdOf (emp : Employee) : ℚ := emp.otThreshold.getD 8

/-- Lines 72–80 of app.py: raw duration, tiered lunch-break deduction
(only when strictly more than 4 raw hours: 0.5h below 10 raw hours, 1h
from 10 raw hours up) and rounding to the nearest half hour. -/
def adjusted_hours (clock_in clock_out : DateTime) : ℚ :=
  let raw := workedHoursRaw clock_in clock_out
  let deducted := if 4 < raw then (if raw < 10 then raw - 1/2 else raw - 1) else raw
  round_to_nearest_half deducted

/-- One iteration of the per-row loop of `calculate_pay`
(app.py lines 72–130), after both timestamps parsed: break deduction,
half-hour rounding, regular/overtime split, status- and holiday-dependent
rate and pay, and the output row dict `{**row, 'Adjusted Hours': ..., ...}`
(modelled with the derived cells appended after the non-derived
pass-through cells; column lookup is order-insensitive). -/
def calculate_shift (clock_in clock_out : DateTime) (emp : Employee)
    (ph_list : List String) (cells : List (String × Cell)) : ItemRecord :=
  let worked := adjusted_hours clock_in clock_out
  let ot_threshold := otThresholdOf emp
  let reg_hours := min ot_threshold worked
  let ot_hours := max 0 (worked - ot_threshold)
  let status := str_lower (str_strip emp.status)
  let hol := is_public_holiday clock_in ph_list
  let hourly_rate :=
    if status = "full time" then
      emp.baseSalary / ((count_working_days clock_in.month clock_in.year : ℚ) * 8)
    else emp.hourlyRate
  let reg_pay :=
    if status = "full time" then
      (if hol then reg_hours * hourly_rate else 0)
    else
      (if hol then reg_hours * hourly_rate * 2 else reg_hours * hourly_rate)
  let ot_pay :=
    if status = "full time" then
      (if hol then ot_hours * hourly_rate * 2 else ot_hours * hourly_rate * (3/2))
    else
      (if hol then ot_hours * hourly_rate * 3 else ot_hours * hourly_rate * (3/2))
  { adjustedHours := worked
    hourlyRate := hourly_rate
    regularHours := reg_hours
    overtimeHours := ot_hours
    isHoliday := hol
    regularPay := reg_pay
    overtimePay := ot_pay
    totalPay := reg_pay + ot_pay
    cells := cells.filter (fun p => !(derivedKeys.contains p.1)) ++
      [("Adjusted Hours", Cell.rat worked), ("Hourly Rate", Cell.rat hourly_rate),
       ("Regular Hours", Cell.rat reg_hours), ("Overtime Hours", Cell.rat ot_hours),
       ("Is Public Holiday", Cell.boolean hol), ("Regular Pay", Cell.rat reg_pay),
       ("Overtime Pay", Cell.rat ot_pay), ("Total Pay", Cell.rat (reg_pay + ot_pay))] }

/-- The per-row loop of `calculate_pay`: itemize every row in order,
propagating a timestamp parse failure as the exception it raises in the
code. -/
def itemizeRows (emp : Employee) (ph_list : List String) :
    List RawRow → Except PayError (List ItemRecord)
  | [] => .ok []
  | r :: rest =>
    match r.clockIn, r.clockOut with
    | some i, some o =>
      (itemizeRows emp ph_list rest).map
        (fun items => calculate_shift i o emp ph_list r.cells :: items)
    | _, _ => .error .malformedTimestamp

/-- The totals row of `calculate_pay` (app.py lines 132–150): a plain sum
of overtime pay; regular pay summed plainly for part-time, and
`base salary + Σ regular pay over rows flagged as public holiday` for
full-time. -/
def mkTotals (items : List ItemRecord) (emp : Employee) : TotalsRow :=
  let emp_status := str_lower (str_strip emp.status)
  let total_reg :=
    if emp_status = "full time" then
      emp.baseSalary + ((items.filter (fun r => r.isHoliday)).map
        (fun r => r.regularPay)).sum
    else (items.map (fun r => r.regularPay)).sum
  let total_ot := (items.map (fun r => r.overtimePay)).sum
  { name := "TOTAL", regularPay := total_reg, overtimePay := total_ot,
    totalPay := total_reg + total_ot }

/-- Function `calculate_pay` (app.py lines 62–151) for one sheet: itemize all rows;
when the resulting frame is non-empty, append the totals row. -/
def calculate_pay (df : List RawRow) (emp : Employee) (ph_list : List String) :
    Except PayError CalcResult :=
  (itemizeRows emp ph_list df).map
    (fun items =>
      { items := items
        totals := if items.isEmpty then none else some (mkTotals items emp) })

/-! ### The multi-sheet run (app.py lines 154–184) -/

/-- Model of `employees[employees["Name"] == sheet]` followed by the `.empty` test
and `.iloc[0]`: the first directory record whose name equals the sheet
label. -/
def lookupEmployee (directory : List Employee) (name : String) : Option Employee :=
  directory.find? (fun e => e.name == name)

/-- The per-worksheet loop under the run-level `try` (app.py lines
155–181): each sheet's `Name` column is overridden with the sheet label;
a label matching no employee is skipped with a warning (the returned
`List String` collects the warned labels); any exception escaping
`calculate_pay` aborts the whole run (the `except` branch shows one error
and nothing is produced), modelled by the `Except.error` outcome. -/
def processRun (sheets : List Sheet) (directory : List Employee)
    (ph_list : List String) :
    Except PayError (List (String × CalcResult) × List String) :=
  match sheets with
  | [] => .ok ([], [])
  | s :: rest =>
    let rows := s.rows.map (fun r =>
      { r with cells := dictSet r.cells "Name" (Cell.str s.label) })
    match lookupEmployee directory s.label with
    | none =>
      (processRun rest directory ph_list).map (fun pw => (pw.1, s.label :: pw.2))
    | some emp =>
      match calculate_pay rows emp ph_list with
      | .error e => .error e
      | .ok res =>
        match processRun rest directory ph_list with
        | .error e => .error e
        | .ok pw => .ok ((s.label, res) :: pw.1, pw.2)

/-! ### Concrete sample data for instantiating the theorems -/

/-- Timestamp 2025-01-08 08:00:00 (a Wednesday). -/
def sampleIn : DateTime := ⟨2025, 1, 8, 8, 0, 0⟩

/-- Timestamp 2025-01-08 17:00:00 — nine raw hours after `sampleIn`. -/
def sampleOut : DateTime := ⟨2025, 1, 8, 17, 0, 0⟩

/-- A part-time employee at 10/h with the default 8h overtime threshold. -/
def samplePart : Employee := ⟨"Alice", "Part Time", 0, 10, some 8⟩

/-- A full-time employee with base salary 2600 (Scenario D of the spec). -/
def sampleFull : Employee := ⟨"Dora", "Full Time", 2600, 0, some 8⟩

/-- A timesheet row for the nine-hour sample shift, with one pass-through
cell. -/
def sampleRow : RawRow :=
  ⟨[("Name", Cell.str "Alice")], some sampleIn, some sampleOut⟩

/-- The itemized records `calculate_pay` produces for `[sampleRow]` and
`samplePart`. -/
def sampleItems : List ItemRecord :=
  [calculate_shift sampleIn sampleOut samplePart [] sampleRow.cells]

/-- The full `calculate_pay` result for `[sampleRow]` and `samplePart`. -/
def sampleRes : CalcResult := ⟨sampleItems, some (mkTotals sampleItems samplePart)⟩

/-- A row whose `Clock In` cell does not parse. -/
def badRow : RawRow := ⟨[("Clock In", Cell.str "not a date")], none, none⟩

/-- A row whose clock-out precedes its clock-in (same day, 17:00 in,
08:00 out). -/
def reversedRow : RawRow := ⟨[], some ⟨2025, 2, 3, 17, 0, 0⟩, some ⟨2025, 2, 3, 8, 0, 0⟩⟩

/-! ### Projection lemmas for the per-shift record -/

theorem calculate_shift_adjustedHours (clock_in clock_out : DateTime)
    (emp : Employee) (ph_list : List String) (cells : List (String × Cell)) :
    (calculate_shift clock_in clock_out emp ph_list cells).adjustedHours =
      adjusted_hours clock_in clock_out := rfl

theorem calculate_shift_regularHours (clock_in clock_out : DateTime)
    (emp : Employee) (ph_list : List String) (cells : List (String × Cell)) :
    (calculate_shift clock_in clock_out emp ph_list cells).regularHours =
      min (otThresholdOf emp) (adjusted_hours clock_in clock_out) := rfl

theorem calculate_shift_overtimeHours (clock_in clock_out : DateTime)
    (emp : Employee) (ph_list : List String) (cells : List (String × Cell)) :
    (calculate_shift clock_in clock_out emp ph_list cells).overtimeHours =
      max 0 (adjusted_hours clock_in clock_out - otThresholdOf emp) := rfl

theorem calculate_shift_isHoliday (clock_in clock_out : DateTime)
    (emp : Employee) (ph_list : List String) (cells : List (String × Cell)) :
    (calculate_shift clock_in clock_out emp ph_list cells).isHoliday =
      is_public_holiday clock_in ph_list := rfl

theorem calculate_shift_hourlyRate (clock_in clock_out : DateTime)
    (emp : Employee) (ph_list : List String) (cells : List (String × Cell)) :
    (calculate_shift clock_in clock_out emp ph_list cells).hourlyRate =
      (if str_lower (str_strip emp.status) = "full time" then
        emp.baseSalary / ((count_working_days clock_in.month clock_in.year : ℚ) * 8)
      else emp.hourlyRate) := rfl

theorem calculate_shift_regularPay (clock_in clock_out : DateTime)
    (emp : Employee) (ph_list : List String) (cells : List (String × Cell)) :
    (calculate_shift clock_in clock_out emp ph_list cells).regularPay =
      (if str_lower (str_strip emp.status) = "full time" then
        (if is_public_holiday clock_in ph_list then
          (calculate_shift clock_in clock_out emp ph_list cells).regularHours *
            (calculate_shift clock_in clock_out emp ph_list cells).hourlyRate
         else 0)
      else
        (if is_public_holiday clock_in ph_list then
          (calculate_shift clock_in clock_out emp ph_list cells).regularHours *
            (calculate_shift clock_in clock_out emp ph_list cells).hourlyRate * 2
         else
          (calculate_shift clock_in clock_out emp ph_list cells).regularHours *
            (calculate_shift clock_in clock_out emp ph_list cells).hourlyRate)) := rfl

theorem calculate_shift_overtimePay (clock_in clock_out : DateTime)
    (emp : Employee) (ph_list : List String) (cells : List (String × Cell)) :
    (calculate_shift clock_in clock_out emp ph_list cells).overtimePay =
      (if str_lower (str_strip emp.status) = "full time" then
        (if is_public_holiday clock_in ph_list then
          (calculate_shift clock_in clock_out emp ph_list cells).overtimeHours *
            (calculate_shift clock_in clock_out emp ph_list cells).hourlyRate * 2
         else
          (calculate_shift clock_in clock_out emp ph_list cells).overtimeHours *
            (calculate_shift clock_in clock_out emp ph_list cells).hourlyRate * (3/2))
      else
        (if is_public_holiday clock_in ph_list then
          (calculate_shift clock_in clock_out emp ph_list cells).overtimeHours *
            (calculate_shift clock_in clock_out emp ph_list cells).hourlyRate * 3
         else
          (calculate_shift clock_in clock_out emp ph_list cells).overtimeHours *
            (calculate_shift clock_in clock_out emp ph_list cells).hourlyRate * (3/2))) := rfl

theorem calculate_shift_cells (clock_in clock_out : DateTime)
    (emp : Employee) (ph_list : List String) (cells : List (String × Cell)) :
    (calculate_shift clock_in clock_out emp ph_list cells).cells =
      cells.filter (fun p => !(derivedKeys.contains p.1)) ++
        [("Adjusted Hours",
            Cell.rat (calculate_shift clock_in clock_out emp ph_list cells).adjustedHours),
         ("Hourly Rate",
            Cell.rat (calculate_shift clock_in clock_out emp ph_list cells).hourlyRate),
         ("Regular Hours",
            Cell.rat (calculate_shift clock_in clock_out emp ph_list cells).regularHours),
         ("Overtime Hours",
            Cell.rat (calculate_shift clock_in clock_out emp ph_list cells).overtimeHours),
         ("Is Public Holiday",
            Cell.boolean (calculate_shift clock_in clock_out emp ph_list cells).isHoliday),
         ("Regular Pay",
            Cell.rat (calculate_shift clock_in clock_out emp ph_list cells).regularPay),
         ("Overtime Pay",
            Cell.rat (calculate_shift clock_in clock_out emp ph_list cells).overtimePay),
         ("Total Pay",
            Cell.rat (calculate_shift clock_in clock_out emp ph_list cells).totalPay)] := rfl

/-! ### Arithmetic helper lemmas -/

theorem pyRound_nonneg {q : ℚ} (h : 0 ≤ q) : 0 ≤ pyRound q := by
  have hf : (0 : ℤ) ≤ ⌊q⌋ := Int.floor_nonneg.mpr h
  unfold pyRound
  split_ifs <;> omega

theorem round_to_nearest_half_nonneg {x : ℚ} (h : 0 ≤ x) :
    0 ≤ round_to_nearest_half x := by
  unfold round_to_nearest_half
  have h2 : (0 : ℚ) ≤ x * 2 := by linarith
  have := pyRound_nonneg h2
  have hcast : (0 : ℚ) ≤ (pyRound (x * 2) : ℚ) := by exact_mod_cast this
  linarith

theorem workedHoursRaw_pos (clock_in clock_out : DateTime)
    (h : toSeconds clock_in < toSeconds clock_out) :
    0 < workedHoursRaw clock_in clock_out := by
  unfold workedHoursRaw
  have hc : (toSeconds clock_in : ℚ) < (toSeconds clock_out : ℚ) := by
    exact_mod_cast h
  have : (0 : ℚ) < (toSeconds clock_out : ℚ) - (toSeconds clock_in : ℚ) := by
    linarith
  positivity

theorem adjusted_hours_nonneg (clock_in clock_out : DateTime)
    (h : toSeconds clock_in < toSeconds clock_out) :
    0 ≤ adjusted_hours clock_in clock_out := by
  have hraw := workedHoursRaw_pos clock_in clock_out h
  unfold adjusted_hours
  apply round_to_nearest_half_nonneg
  split_ifs <;> linarith

theorem is_public_holiday_iff (t : DateTime) (L : List String) :
    is_public_holiday t L = true ↔ fmtDate t ∈ L := by
  unfold is_public_holiday
  induction L with
  | nil => simp
  | cons a l ih => simp [List.contains_cons] at ih ⊢

/-! ### Concrete evaluation lemmas for the nine-hour sample shift -/

theorem workedHoursRaw_sample : workedHoursRaw sampleIn sampleOut = 9 := by
  norm_num [workedHoursRaw, toSeconds, toOrdinal, daysBeforeYear, daysBeforeMonth,
    daysInMonth, isLeap, sampleIn, sampleOut]

theorem adjusted_hours_sample : adjusted_hours sampleIn sampleOut = 17 / 2 := by
  simp only [adjusted_hours]
  rw [workedHoursRaw_sample]
  rw [if_pos (show (4 : ℚ) < 9 by norm_num), if_pos (show (9 : ℚ) < 10 by norm_num)]
  norm_num [round_to_nearest_half, pyRound]

/-! ### Claim theorems -/

/-- Claim C1: for every shift, the pay amounts follow the four-case premium
table determined by employment status and the holiday flag — part-time
non-holiday: `reg_hours * rate` and `ot_hours * rate * 1.5`; part-time
holiday: `reg_hours * rate * 2` and `ot_hours * rate * 3`; full-time
non-holiday: `0` and `ot_hours * rate * 1.5`; full-time holiday:
`reg_hours * rate * 1` and `ot_hours * rate * 2`.  Stated as multiplier
factors on the emitted record's own fields. -/
theorem C1_premium_table (clock_in clock_out : DateTime) (emp : Employee)
    (ph_list : List String) (cells : List (String × Cell)) :
    (calculate_shift clock_in clock_out emp ph_list cells).regularPay =
      (calculate_shift clock_in clock_out emp ph_list cells).regularHours *
        (calculate_shift clock_in clock_out emp ph_list cells).hourlyRate *
        (if str_lower (str_strip emp.status) = "full time" then
          (if (calculate_shift clock_in clock_out emp ph_list cells).isHoliday
            then 1 else 0)
         else
          (if (calculate_shift clock_in clock_out emp ph_list cells).isHoliday
            then 2 else 1)) ∧
    (calculate_shift clock_in clock_out emp ph_list cells).overtimePay =
      (calculate_shift clock_in clock_out emp ph_list cells).overtimeHours *
        (calculate_shift clock_in clock_out emp ph_list cells).hourlyRate *
        (if (calculate_shift clock_in clock_out emp ph_list cells).isHoliday then
          (if str_lower (str_strip emp.status) = "full time" then 2 else 3)
         else 3 / 2) := by
  constructor
  · rw [calculate_shift_regularPay, calculate_shift_isHoliday]
    split_ifs <;> ring
  · rw [calculate_shift_overtimePay, calculate_shift_isHoliday]
    split_ifs <;> ring

/-- Claim C2: for every shift of a full-time employee, the effective hourly
rate is `base_salary / (working_days * 8)` where `working_days` counts the
days of the clock-in's actual month (true month length) whose weekday is
not Tuesday (Monday = 0, so Tuesday is 1). -/
theorem C2_fulltime_rate (clock_in clock_out : DateTime) (emp : Employee)
    (ph_list : List String) (cells : List (String × Cell))
    (hstatus : str_lower (str_strip emp.status) = "full time") :
    (calculate_shift clock_in clock_out emp ph_list cells).hourlyRate =
      emp.baseSalary /
        ((((List.range (daysInMonth clock_in.year clock_in.month)).filter
            (fun d => weekday clock_in.year clock_in.month (d + 1) ≠ 1)).length : ℚ)
          * 8) := by
  rw [calculate_shift_hourlyRate, if_pos hstatus]
  rfl

/-- Witness for C2: Scenario D — the full-time sample employee (base salary
2600) on a January 2025 shift; January 2025 is a 31-day month with four
Tuesdays. -/
theorem C2_fulltime_rate_witness :
    str_lower (str_strip sampleFull.status) = "full time" ∧
    count_working_days sampleIn.month sampleIn.year = 27 ∧
    (calculate_shift sampleIn sampleOut sampleFull [] []).hourlyRate =
      sampleFull.baseSalary /
        ((((List.range (daysInMonth sampleIn.year sampleIn.month)).filter
            (fun d => weekday sampleIn.year sampleIn.month (d + 1) ≠ 1)).length : ℚ)
          * 8) :=
  ⟨by decide, by decide,
    C2_fulltime_rate sampleIn sampleOut sampleFull [] [] (by decide)⟩

/-- Claim C6: for every shift (with clock-out after clock-in and a
non-negative overtime threshold), `regular_hours + overtime_hours`
equals `adjusted_hours` exactly and both are non-negative. -/
theorem C6_hours_split (clock_in clock_out : DateTime) (emp : Employee)
    (ph_list : List String) (cells : List (String × Cell))
    (hdur : toSeconds clock_in < toSeconds clock_out)
    (hthr : 0 ≤ otThresholdOf emp) :
    (calculate_shift clock_in clock_out emp ph_list cells).regularHours +
        (calculate_shift clock_in clock_out emp ph_list cells).overtimeHours =
      (calculate_shift clock_in clock_out emp ph_list cells).adjustedHours ∧
    0 ≤ (calculate_shift clock_in clock_out emp ph_list cells).regularHours ∧
    0 ≤ (calculate_shift clock_in clock_out emp ph_list cells).overtimeHours := by
  rw [calculate_shift_regularHours, calculate_shift_overtimeHours,
    calculate_shift_adjustedHours]
  have hw := adjusted_hours_nonneg clock_in clock_out hdur
  refine ⟨?_, le_min hthr hw, le_max_left 0 _⟩
  rcases le_total (adjusted_hours clock_in clock_out) (otThresholdOf emp) with h | h
  · rw [min_eq_right h, max_eq_left (by linarith)]
    ring
  · rw [min_eq_left h, max_eq_right (by linarith)]
    ring

/-- Witness for C6: the nine-hour sample shift of the part-time sample
employee. -/
theorem C6_hours_split_witness :
    toSeconds sampleIn < toSeconds sampleOut ∧
    (0 : ℚ) ≤ otThresholdOf samplePart ∧
    ((calculate_shift sampleIn sampleOut samplePart [] []).regularHours +
        (calculate_shift sampleIn sampleOut samplePart [] []).overtimeHours =
      (calculate_shift sampleIn sampleOut samplePart [] []).adjustedHours ∧
    0 ≤ (calculate_shift sampleIn sampleOut samplePart [] []).regularHours ∧
    0 ≤ (calculate_shift sampleIn sampleOut samplePart [] []).overtimeHours) :=
  ⟨by decide, by decide,
    C6_hours_split sampleIn sampleOut samplePart [] [] (by decide) (by decide)⟩

/-- Counterexample to claim C4 as stated: on the part-time sample employee
(rate 10, threshold 8), a non-holiday shift of exactly 9 raw hours does
not get a 1-hour break deduction — the code deducts only 0.5h (the 1-hour
tier starts at 10 raw hours), so the claimed output values
(adjusted 8, regular 8, overtime 0, regular pay 80, overtime pay 0) are
not what the code produces. -/
theorem C4_nine_hour_shift_counterexample :
    ¬ ((calculate_shift sampleIn sampleOut samplePart [] []).adjustedHours = 8 ∧
       (calculate_shift sampleIn sampleOut samplePart [] []).regularHours = 8 ∧
       (calculate_shift sampleIn sampleOut samplePart [] []).overtimeHours = 0 ∧
       (calculate_shift sampleIn sampleOut samplePart [] []).regularPay = 80 ∧
       (calculate_shift sampleIn sampleOut samplePart [] []).overtimePay = 0) := by
  rintro ⟨h1, -, -, -, -⟩
  rw [calculate_shift_adjustedHours, adjusted_hours_sample] at h1
  norm_num at h1

/-- Claim C4 amended: the 9-raw-hour non-holiday part-time shift (rate 10,
threshold 8) receives a 0.5-hour break deduction, giving adjusted hours
8.5, regular hours 8, overtime hours 0.5, regular pay 80 and overtime
pay 7.5. -/
theorem C4_nine_hour_shift :
    (calculate_shift sampleIn sampleOut samplePart [] []).adjustedHours = 17 / 2 ∧
    (calculate_shift sampleIn sampleOut samplePart [] []).regularHours = 8 ∧
    (calculate_shift sampleIn sampleOut samplePart [] []).overtimeHours = 1 / 2 ∧
    (calculate_shift sampleIn sampleOut samplePart [] []).regularPay = 80 ∧
    (calculate_shift sampleIn sampleOut samplePart [] []).overtimePay = 15 / 2 := by
  have hadj : (calculate_shift sampleIn sampleOut samplePart [] []).adjustedHours
      = 17 / 2 := by
    rw [calculate_shift_adjustedHours, adjusted_hours_sample]
  have hthr : otThresholdOf samplePart = 8 := rfl
  have hreg : (calculate_shift sampleIn sampleOut samplePart [] []).regularHours
      = 8 := by
    rw [calculate_shift_regularHours, adjusted_hours_sample, hthr,
      min_eq_left (by norm_num)]
  have hot : (calculate_shift sampleIn sampleOut samplePart [] []).overtimeHours
      = 1 / 2 := by
    rw [calculate_shift_overtimeHours, adjusted_hours_sample, hthr,
      show (17 : ℚ) / 2 - 8 = 1 / 2 by norm_num,
      max_eq_right (by norm_num)]
  have hst : ¬ (str_lower (str_strip samplePart.status) = "full time") := by decide
  have hhol : is_public_holiday sampleIn [] = false := rfl
  have hrate : (calculate_shift sampleIn sampleOut samplePart [] []).hourlyRate
      = 10 := by
    rw [calculate_shift_hourlyRate, if_neg hst]
    rfl
  refine ⟨hadj, hreg, hot, ?_, ?_⟩
  · rw [calculate_shift_regularPay, if_neg hst, hhol]
    simp only [Bool.false_eq_true, if_false]
    rw [hreg, hrate]
    norm_num
  · rw [calculate_shift_overtimePay, if_neg hst, hhol]
    simp only [Bool.false_eq_true, if_false]
    rw [hot, hrate]
    norm_num

/-- Claim C3: whenever `calculate_pay` succeeds with at least one itemized
record, the totals row has `total_overtime_pay = Σ overtime_pay` (a plain
sum), `total_regular_pay = Σ regular_pay` for part-time and
`base_salary + Σ regular_pay over holiday-flagged shifts` for full-time,
and `total_pay = total_regular_pay + total_overtime_pay`. -/
theorem C3_totals (df : List RawRow) (emp : Employee) (ph_list : List String)
    (res : CalcResult) (hok : calculate_pay df emp ph_list = .ok res)
    (hne : res.items ≠ []) :
    ∃ t, res.totals = some t ∧
      t.overtimePay = (res.items.map (fun r => r.overtimePay)).sum ∧
      t.regularPay =
        (if str_lower (str_strip emp.status) = "full time" then
          emp.baseSalary +
            ((res.items.filter (fun r => r.isHoliday)).map
              (fun r => r.regularPay)).sum
         else (res.items.map (fun r => r.regularPay)).sum) ∧
      t.totalPay = t.regularPay + t.overtimePay := by
  cases hit : itemizeRows emp ph_list df with
  | error e =>
    unfold calculate_pay at hok
    rw [hit] at hok
    simp [Except.map] at hok
  | ok items =>
    unfold calculate_pay at hok
    rw [hit] at hok
    simp only [Except.map, Except.ok.injEq] at hok
    subst hok
    cases items with
    | nil => exact absurd rfl hne
    | cons a l => exact ⟨mkTotals (a :: l) emp, rfl, rfl, rfl, rfl⟩

/-- Witness for C3: one nine-hour part-time shift; `calculate_pay` yields
the sample result and its totals row satisfies the three equations. -/
theorem C3_totals_witness :
    calculate_pay [sampleRow] samplePart [] = .ok sampleRes ∧
    sampleRes.items ≠ [] ∧
    ∃ t, sampleRes.totals = some t ∧
      t.overtimePay = (sampleRes.items.map (fun r => r.overtimePay)).sum ∧
      t.regularPay =
        (if str_lower (str_strip samplePart.status) = "full time" then
          samplePart.baseSalary +
            ((sampleRes.items.filter (fun r => r.isHoliday)).map
              (fun r => r.regularPay)).sum
         else (sampleRes.items.map (fun r => r.regularPay)).sum) ∧
      t.totalPay = t.regularPay + t.overtimePay :=
  ⟨rfl, by simp [sampleRes, sampleItems],
    C3_totals [sampleRow] samplePart [] sampleRes rfl
      (by simp [sampleRes, sampleItems])⟩

/-- Claim C8: the holiday flag is a pure function of the clock-in's civil
date (time-of-day fields are never consulted), and inserting or removing a
single calendar entry not otherwise present changes the flag exactly for
the timestamps whose formatted clock-in date equals that entry. -/
theorem C8_holiday_toggle :
    (∀ (L : List String) (t u : DateTime), t.year = u.year → t.month = u.month →
        t.day = u.day → is_public_holiday t L = is_public_holiday u L) ∧
    (∀ (L1 L2 : List String) (e : String) (t : DateTime), e ∉ L1 ++ L2 →
        ((is_public_holiday t (L1 ++ e :: L2) ≠ is_public_holiday t (L1 ++ L2)) ↔
          fmtDate t = e)) := by
  constructor
  · intro L t u h1 h2 h3
    unfold is_public_holiday fmtDate
    rw [h1, h2, h3]
  · intro L1 L2 e t he
    have key : is_public_holiday t (L1 ++ e :: L2) = is_public_holiday t (L1 ++ L2)
        ↔ ¬ fmtDate t = e := by
      rw [Bool.eq_iff_iff, is_public_holiday_iff, is_public_holiday_iff]
      constructor
      · intro hiff heq
        subst heq
        exact he (hiff.mp (List.mem_append.mpr (Or.inr (List.mem_cons_self _ _))))
      · intro hne
        simp [List.mem_append, List.mem_cons, hne]
    constructor
    · intro hneq
      by_contra hfmt
      exact hneq (key.mpr hfmt)
    · intro heq hbooleq
      exact (key.mp hbooleq) heq

/-- Witness for C8: adding the entry `2025-12-25` to a calendar not
containing it flips the flag of a Christmas-morning shift. -/
theorem C8_holiday_toggle_witness :
    is_public_holiday ⟨2025, 12, 25, 9, 30, 0⟩ ([] ++ "2025-12-25" :: ["2025-01-01"]) ≠
      is_public_holiday ⟨2025, 12, 25, 9, 30, 0⟩ ([] ++ ["2025-01-01"]) :=
  (C8_holiday_toggle.2 [] ["2025-01-01"] "2025-12-25" ⟨2025, 12, 25, 9, 30, 0⟩
    (by decide)).mpr (by decide)

/-- Bridge between Boolean `List.contains` and membership for string
lists. -/
theorem contains_eq_mem (l : List String) (a : String) :
    l.contains a = true ↔ a ∈ l := by
  induction l with
  | nil => simp
  | cons b bs ih => simp [List.contains_cons] at ih ⊢

/-- Looking a non-derived key up in a filtered-then-extended output row
sees exactly the source row's cells. -/
theorem find?_filter_append (k : String) (hk : k ∉ derivedKeys) :
    ∀ (cells tail : List (String × Cell)),
      (∀ p ∈ tail, p.1 ∈ derivedKeys) →
      List.find? (fun p => p.1 == k)
        (cells.filter (fun p => !(derivedKeys.contains p.1)) ++ tail) =
      List.find? (fun p => p.1 == k) cells := by
  intro cells
  induction cells with
  | nil =>
    intro tail htail
    simp only [List.filter_nil, List.nil_append, List.find?_nil]
    induction tail with
    | nil => rfl
    | cons p ps ih =>
      have hp : p.1 ∈ derivedKeys := htail p (List.mem_cons_self _ _)
      have hne : (p.1 == k) = false := by
        apply beq_eq_false_iff_ne.mpr
        intro h
        exact hk (h ▸ hp)
      simp only [List.find?_cons, hne]
      exact ih (fun q hq => htail q (List.mem_cons_of_mem _ hq))
  | cons c cs ih =>
    intro tail htail
    by_cases hck : c.1 = k
    · have hcd : (derivedKeys.contains c.1) = false := by
        rw [← Bool.not_eq_true]
        intro h
        exact hk (hck ▸ (contains_eq_mem _ _).mp h)
      have hbeq : (c.1 == k) = true := beq_iff_eq.mpr hck
      simp only [List.filter_cons, hcd, Bool.not_false, if_true, List.cons_append,
        List.find?_cons, hbeq]
    · have hbeq : (c.1 == k) = false := beq_eq_false_iff_ne.mpr hck
      by_cases hcd : derivedKeys.contains c.1 = true
      · simp only [List.filter_cons, hcd, Bool.not_true, if_false,
          List.find?_cons, hbeq]
        exact ih tail htail
      · rw [Bool.not_eq_true] at hcd
        simp only [List.filter_cons, hcd, Bool.not_false, if_true,
          List.cons_append, List.find?_cons, hbeq]
        exact ih tail htail

/-- Claim C9: for every shift row, every cell of the source record whose
column is not one of the eight derived pay columns is preserved unchanged
in the emitted itemized record. -/
theorem C9_passthrough (clock_in clock_out : DateTime) (emp : Employee)
    (ph_list : List String) (cells : List (String × Cell)) (k : String)
    (hk : k ∉ derivedKeys) :
    lookupCell (calculate_shift clock_in clock_out emp ph_list cells).cells k =
      lookupCell cells k := by
  rw [calculate_shift_cells]
  unfold lookupCell
  rw [find?_filter_append k hk cells _ ?_]
  intro p hp
  simp only [List.mem_cons, List.not_mem_nil, or_false] at hp
  rcases hp with rfl | rfl | rfl | rfl | rfl | rfl | rfl | rfl <;>
    simp [derivedKeys]

/-- Witness for C9: the `Name` column is not derived, and its cell passes
through the sample shift unchanged. -/
theorem C9_passthrough_witness :
    "Name" ∉ derivedKeys ∧
    lookupCell (calculate_shift sampleIn sampleOut samplePart []
        sampleRow.cells).cells "Name" = lookupCell sampleRow.cells "Name" :=
  ⟨by decide,
    C9_passthrough sampleIn sampleOut samplePart [] sampleRow.cells "Name"
      (by decide)⟩

/-- Counterexample to claim C10 as stated: the loader does not keep
non-blank lines verbatim — it strips surrounding whitespace — and
consequently the line ` 2025-01-08` (not itself in zero-padded
`YYYY-MM-DD` form) does mark the 2025-01-08 shift as a holiday. -/
theorem C10_calendar_load_counterexample :
    load_public_holidays " 2025-01-08\n" ≠ [" 2025-01-08"] ∧
    is_public_holiday ⟨2025, 1, 8, 8, 0, 0⟩
      (load_public_holidays " 2025-01-08\n") = true :=
  ⟨by decide, by decide⟩

/-- Claim C10 amended: loading the holiday calendar never fails and never
reports a malformed entry — every line is kept as a stripped string (blank
lines dropped), and a shift is flagged exactly when its clock-in date,
formatted as zero-padded `YYYY-MM-DD`, equals one of the stripped
(non-blank) lines; hence an entry whose stripped form is not such a
formatted date marks no shift. -/
theorem C10_calendar_load (content : String) (t : DateTime) :
    is_public_holiday t (load_public_holidays content) = true ↔
      (fmtDate t ∈ (splitNewlines content.data).map (fun l => str_strip ⟨l⟩) ∧
        fmtDate t ≠ "") := by
  rw [is_public_holiday_iff]
  unfold load_public_holidays
  rw [List.mem_filter]
  simp [bne_iff_ne]

/-- A sheet containing a row with an unparsable timestamp makes the
per-row loop raise. -/
theorem itemizeRows_error (emp : Employee) (ph_list : List String) :
    ∀ rows : List RawRow,
      (∃ r ∈ rows, r.clockIn = none ∨ r.clockOut = none) →
      itemizeRows emp ph_list rows = .error .malformedTimestamp := by
  intro rows
  induction rows with
  | nil =>
    rintro ⟨r, hr, -⟩
    exact absurd hr (List.not_mem_nil r)
  | cons a l ih =>
    rintro ⟨r, hr, hbad⟩
    rcases List.mem_cons.mp hr with rfl | hr'
    · rcases hbad with h | h
      · cases ho : r.clockOut <;> simp [itemizeRows, h, ho]
      · cases hi : r.clockIn <;> simp [itemizeRows, hi, h]
    · have herr := ih ⟨r, hr', hbad⟩
      cases hi : a.clockIn <;> cases ho : a.clockOut <;>
        simp [itemizeRows, hi, ho, herr, Except.map]

/-- A sheet whose rows all parse is itemized without error. -/
theorem itemizeRows_ok (emp : Employee) (ph_list : List String) :
    ∀ rows : List RawRow,
      (∀ r ∈ rows, r.clockIn ≠ none ∧ r.clockOut ≠ none) →
      ∃ items, itemizeRows emp ph_list rows = .ok items := by
  intro rows
  induction rows with
  | nil => exact fun _ => ⟨[], rfl⟩
  | cons a l ih =>
    intro h
    obtain ⟨h1, h2⟩ := h a (List.mem_cons_self _ _)
    obtain ⟨i, hi⟩ := Option.ne_none_iff_exists'.mp h1
    obtain ⟨o, ho⟩ := Option.ne_none_iff_exists'.mp h2
    obtain ⟨items, hitems⟩ := ih (fun r hr => h r (List.mem_cons_of_mem _ hr))
    exact ⟨calculate_shift i o emp ph_list a.cells :: items,
      by simp [itemizeRows, hi, ho, hitems, Except.map]⟩

/-- Claim C5 amended: the run-level exception handler is the only
protection around the per-shift work, so only the unknown-employee case is
downgraded to a skip-with-warning.  First conjunct: whenever any sheet
whose label resolves to an employee contains a row with an unparsable
timestamp, the whole run aborts with that error and produces no output for
any batch.  Second conjunct: a clock-out at or before clock-in is not
detected at all — the run completes normally on such a shift. -/
theorem C5_error_downgrade :
    (∀ (sheets : List Sheet) (directory : List Employee) (ph_list : List String),
        (∃ s ∈ sheets, lookupEmployee directory s.label ≠ none ∧
          ∃ r ∈ s.rows, r.clockIn = none ∨ r.clockOut = none) →
        processRun sheets directory ph_list = .error .malformedTimestamp) ∧
    (∃ out, processRun [⟨"Rex", [reversedRow]⟩]
        [⟨"Rex", "Part Time", 0, 10, some 8⟩] [] = .ok out) := by
  constructor
  · intro sheets directory ph_list
    induction sheets with
    | nil =>
      rintro ⟨s, hs, -⟩
      exact absurd hs (List.not_mem_nil s)
    | cons a rest ih =>
      rintro ⟨s, hs, hknown, r, hr, hbad⟩
      rcases List.mem_cons.mp hs with rfl | hs'
      · obtain ⟨emp, hemp⟩ := Option.ne_none_iff_exists'.mp hknown
        have herr := itemizeRows_error emp ph_list
          (s.rows.map (fun r =>
            { r with cells := dictSet r.cells "Name" (Cell.str s.label) }))
          ⟨_, List.mem_map_of_mem _ hr, hbad⟩
        have hcerr : calculate_pay
            (s.rows.map (fun r =>
              { r with cells := dictSet r.cells "Name" (Cell.str s.label) }))
            emp ph_list = .error .malformedTimestamp := by
          unfold calculate_pay
          rw [herr]
          rfl
        simp [processRun, hemp, hcerr]
      · have hrest := ih ⟨s, hs', hknown, r, hr, hbad⟩
        cases hemp : lookupEmployee directory a.label with
        | none => simp [processRun, hemp, hrest, Except.map]
        | some emp =>
          cases hc : calculate_pay
              (a.rows.map (fun r =>
                { r with cells := dictSet r.cells "Name" (Cell.str a.label) }))
              emp ph_list with
          | error e => cases e; simp [processRun, hemp, hc]
          | ok res => simp [processRun, hemp, hc, hrest]
  · exact ⟨_, rfl⟩

/-- Counterexample to claim C5 as stated: a run with two known employees,
where Ann's single shift has an unparsable timestamp and Bob's batch is
perfectly fine, aborts as a whole — Bob's unaffected batch produces no
output, instead of the malformed shift being skipped with a warning. -/
theorem C5_error_downgrade_counterexample :
    processRun
      [⟨"Ann", [badRow]⟩, ⟨"Bob", [sampleRow]⟩]
      [⟨"Ann", "Part Time", 0, 10, some 8⟩, ⟨"Bob", "Part Time", 0, 12, some 8⟩]
      [] = .error .malformedTimestamp := rfl

/-- Witness for C5 (amended): a concrete one-sheet run with a known
employee and an unparsable clock-in aborts with the timestamp error. -/
theorem C5_error_downgrade_witness :
    processRun [⟨"Cam", [badRow]⟩] [⟨"Cam", "Part Time", 0, 11, some 8⟩] [] =
      .error .malformedTimestamp :=
  C5_error_downgrade.1 [⟨"Cam", [badRow]⟩] [⟨"Cam", "Part Time", 0, 11, some 8⟩] []
    ⟨⟨"Cam", [badRow]⟩, List.mem_cons_self _ _,
      fun h => Option.noConfusion h,
      badRow, List.mem_cons_self _ _, Or.inl rfl⟩

/-- A run over sheets whose known-label rows all parse succeeds, skips
exactly the unknown labels into warnings, and processes every known
label. -/
theorem processRun_ok_of_parses (directory : List Employee)
    (ph_list : List String) :
    ∀ sheets : List Sheet,
      (∀ T ∈ sheets, lookupEmployee directory T.label ≠ none →
        ∀ r ∈ T.rows, r.clockIn ≠ none ∧ r.clockOut ≠ none) →
      ∃ procs warns, processRun sheets directory ph_list = .ok (procs, warns) ∧
        (∀ T ∈ sheets,
          (lookupEmployee directory T.label = none → T.label ∈ warns) ∧
          (lookupEmployee directory T.label ≠ none →
            T.label ∈ procs.map Prod.fst)) ∧
        (∀ lbl ∈ procs.map Prod.fst, lookupEmployee directory lbl ≠ none) := by
  intro sheets
  induction sheets with
  | nil =>
    intro _
    exact ⟨[], [], rfl, by simp, by simp⟩
  | cons s rest ih =>
    intro hall
    obtain ⟨procs, warns, hrun, hmem, hknown⟩ :=
      ih (fun T hT => hall T (List.mem_cons_of_mem _ hT))
    cases hemp : lookupEmployee directory s.label with
    | none =>
      refine ⟨procs, s.label :: warns, ?_, ?_, hknown⟩
      · simp [processRun, hemp, hrun, Except.map]
      · intro T hT
        rcases List.mem_cons.mp hT with rfl | hT'
        · exact ⟨fun _ => List.mem_cons_self _ _, fun hne => absurd hemp hne⟩
        · exact ⟨fun h0 => List.mem_cons_of_mem _ ((hmem T hT').1 h0),
            (hmem T hT').2⟩
    | some emp =>
      have hrows : ∀ r ∈ s.rows.map (fun r =>
          { r with cells := dictSet r.cells "Name" (Cell.str s.label) }),
          r.clockIn ≠ none ∧ r.clockOut ≠ none := by
        intro r hr
        obtain ⟨r0, hr0, rfl⟩ := List.mem_map.mp hr
        exact hall s (List.mem_cons_self _ _) (by simp [hemp]) r0 hr0
      obtain ⟨items, hitems⟩ := itemizeRows_ok emp ph_list _ hrows
      refine ⟨(s.label,
          ⟨items, if items.isEmpty then none else some (mkTotals items emp)⟩)
          :: procs, warns, ?_, ?_, ?_⟩
      · simp [processRun, hemp, hrun, calculate_pay, hitems, Except.map]
      · intro T hT
        rcases List.mem_cons.mp hT with rfl | hT'
        · refine ⟨fun h0 => ?_, fun _ => by simp⟩
          rw [h0] at hemp
          exact Option.noConfusion hemp
        · obtain ⟨ha, hb⟩ := hmem T hT'
          exact ⟨ha, fun hne => by
            rw [List.map_cons]
            exact List.mem_cons_of_mem _ (hb hne)⟩
      · intro lbl hl
        rw [List.map_cons] at hl
        rcases List.mem_cons.mp hl with h | h
        · rw [h]
          simp [hemp]
        · exact hknown lbl h

/-- Claim C7: a batch whose label matches no employee is skipped with a
recorded warning rather than aborting the run, and (provided the other
batches' timestamps parse, so that they raise no error of their own) every
other known batch of the run is still processed and produces output. -/
theorem C7_unknown_batch_skip (sheets : List Sheet) (directory : List Employee)
    (ph_list : List String) (S : Sheet) (hS : S ∈ sheets)
    (hunknown : lookupEmployee directory S.label = none)
    (hparse : ∀ T ∈ sheets, lookupEmployee directory T.label ≠ none →
      ∀ r ∈ T.rows, r.clockIn ≠ none ∧ r.clockOut ≠ none) :
    ∃ procs warns, processRun sheets directory ph_list = .ok (procs, warns) ∧
      S.label ∈ warns ∧ S.label ∉ procs.map Prod.fst ∧
      ∀ T ∈ sheets, lookupEmployee directory T.label ≠ none →
        T.label ∈ procs.map Prod.fst := by
  obtain ⟨procs, warns, hrun, hmem, hknown⟩ :=
    processRun_ok_of_parses directory ph_list sheets hparse
  refine ⟨procs, warns, hrun, (hmem S hS).1 hunknown, ?_,
    fun T hT hne => (hmem T hT).2 hne⟩
  intro hin
  exact (hknown _ hin) hunknown

/-- Witness for C7: a two-sheet run where the first label matches no
employee; the run succeeds, warns on the unknown label and still processes
the known sheet. -/
theorem C7_unknown_batch_skip_witness :
    ∃ procs warns,
      processRun [⟨"Ghost", []⟩, ⟨"Bo", [sampleRow]⟩]
        [⟨"Bo", "Part Time", 0, 10, some 8⟩] [] = .ok (procs, warns) ∧
      (⟨"Ghost", []⟩ : Sheet).label ∈ warns ∧
      (⟨"Ghost", []⟩ : Sheet).label ∉ procs.map Prod.fst ∧
      ∀ T ∈ [(⟨"Ghost", []⟩ : Sheet), ⟨"Bo", [sampleRow]⟩],
        lookupEmployee [⟨"Bo", "Part Time", 0, 10, some 8⟩] T.label ≠ none →
        T.label ∈ procs.map Prod.fst :=
  C7_unknown_batch_skip [⟨"Ghost", []⟩, ⟨"Bo", [sampleRow]⟩]
    [⟨"Bo", "Part Time", 0, 10, some 8⟩] [] ⟨"Ghost", []⟩
    (List.mem_cons_self _ _) rfl
    (by
      intro T hT hne r hr
      simp only [List.mem_cons, List.not_mem_nil, or_false] at hT
      rcases hT with rfl | rfl
      · exact absurd rfl hne
      · simp only [List.mem_cons, List.not_mem_nil, or_false] at hr
        subst hr
        exact ⟨by simp [sampleRow], by simp [sampleRow]⟩)

end Payroll
